import Mathlib

/-!
Verification development for the Roam Research CLI scripts
(`read-content.js`, `write-content.js`, `create-pages.js`).

The development shallow-embeds the two core routines of the repository:

* `makeHttpsRequest` — the JSON-over-HTTPS request helper that follows a
  301/302/308 redirect exactly once and classifies the final response
  (`read-content.js` lines 104–158; the same helper is duplicated in
  `write-content.js` and, inlined, the `makeRoamRequest` helper of `create-pages.js`).
* `fetchChildren` / `buildBlockTree` — the child-row post-processing and the
  recursive, depth-bounded block-tree assembly (`read-content.js` lines
  201–236).

plus the daily-note title formatting of `write-content.js`
(`getTodayRoamTitle` / `getOrdinalSuffix`, lines 110–134).

Platform effects (sockets, timers, the V8 `JSON.parse`) are abstracted as
explicit inputs: the network is a function from hop index to the observed
behaviour of that hop, and the JSON parser is a function parameter.  Every
definition is executable.
-/

namespace Roam

/-- JSON values, the result type of the platform function `JSON.parse`. -/
inductive Json where
  | null : Json
  | bool (b : Bool) : Json
  | num (n : Int) : Json
  | str (s : String) : Json
  | arr (elems : List Json) : Json
  | obj (fields : List (String × Json)) : Json

/-- An HTTP response as observed by the response callback in
`makeHttpsRequest`: the status code and the accumulated body string
(`data`).  The target of the `Location` header is abstracted away: the second
hop of the `net` function below is by construction the request to that
target. -/
structure RespData where
  statusCode : Nat
  body : String
deriving Repr, DecidableEq

/-- What a single `https.request` does, apart from timing: either it
delivers a response or the connection errors (the `error` event). -/
inductive HopOutcome where
  | response (r : RespData) : HopOutcome
  | transportError (msg : String) : HopOutcome
deriving Repr, DecidableEq

/-- One hop of network behaviour: how many milliseconds the request takes
and what it does.  If `elapsed` reaches the socket timeout configured for
that request, the `timeout` event fires first and the request is
destroyed. -/
structure Hop where
  elapsed : Nat
  outcome : HopOutcome
deriving Repr, DecidableEq

/-- The failure taxonomy of the request helper: `reject(err)` on the
`error` event (transport), the timeout rejection on the `timeout` event, `reject({statusCode, message})` for a non-200 final
response, and a `JSON.parse` exception escaping the `end` handler. -/
inductive RequestError where
  | transport (msg : String) : RequestError
  | timeout : RequestError
  | http (statusCode : Nat) (rawBody : String) : RequestError
  | parse (msg : String) : RequestError
deriving Repr, DecidableEq

/-- Result and total elapsed time of one `makeHttpsRequest` call. -/
structure SendOutcome where
  result : Except RequestError Json
  elapsed : Nat

/-- The check `res.statusCode === 301 || res.statusCode === 302 ||
res.statusCode === 308`. -/
def isRedirect (code : Nat) : Bool :=
  code == 301 || code == 302 || code == 308

/-- Run one `https.request` with socket timeout `timeoutMs`: if the elapsed
time of the hop reaches the timeout, the request is destroyed and the call
rejects with `Request timeout` after exactly `timeoutMs` ms; otherwise the
own outcome of the hop (response or `error` event) is delivered at its
elapsed time. -/
def runHop (timeoutMs : Nat) (h : Hop) : Except RequestError RespData × Nat :=
  if timeoutMs ≤ h.elapsed then
    (Except.error RequestError.timeout, timeoutMs)
  else
    match h.outcome with
    | HopOutcome.transportError msg => (Except.error (RequestError.transport msg), h.elapsed)
    | HopOutcome.response r => (Except.ok r, h.elapsed)

/-- The `end` handler for a response that is not redirected away:
`res.statusCode === 200 ? resolve(data ? JSON.parse(data) : {}) :
reject({statusCode, message: data})`.  A `JSON.parse` exception surfaces
as a `RequestError.parse` failure of the call. -/
def finishResponse (parseJson : String → Except String Json) (r : RespData) :
    Except RequestError Json :=
  if r.statusCode == 200 then
    if r.body == "" then
      Except.ok (Json.obj [])
    else
      match parseJson r.body with
      | Except.ok j => Except.ok j
      | Except.error msg => Except.error (RequestError.parse msg)
  else
    Except.error (RequestError.http r.statusCode r.body)

/-- Shallow embedding of `makeHttpsRequest(requestOptions, payload, timeout)`.

`net false` is the behaviour of the request to the original options;
`net true` is the behaviour of the request to the `Location` target
(issued only when the status of the first response is 301/302/308).  Both
requests are created with the same `timeout: timeout` option — the
redirect hop receives a fresh socket timeout of the same value, not the
remainder of a shared budget.  A redirect status on the second hop is not
treated specially: it falls through to the generic status check. -/
def makeHttpsRequest (parseJson : String → Except String Json) (timeoutMs : Nat)
    (net : Bool → Hop) : SendOutcome :=
  match runHop timeoutMs (net false) with
  | (Except.error e, t1) => { result := Except.error e, elapsed := t1 }
  | (Except.ok r1, t1) =>
    if isRedirect r1.statusCode then
      match runHop timeoutMs (net true) with
      | (Except.error e, t2) => { result := Except.error e, elapsed := t1 + t2 }
      | (Except.ok r2, t2) => { result := finishResponse parseJson r2, elapsed := t1 + t2 }
    else
      { result := finishResponse parseJson r1, elapsed := t1 }

/-! ## Tree fetcher (`read-content.js` lines 201–236) -/

/-- A child row after the map step `.map(([uid, string, order]) =>
({ uid, string, order }))` of `fetchChildren`. -/
structure Child where
  uid : String
  string : String
  order : Int
deriving Repr, DecidableEq

/-- The ordering realised by the comparator `(a, b) => a.order - b.order`:
`a` sorts no later than `b` when `a.order ≤ b.order`. -/
def childLE (a b : Child) : Prop := a.order ≤ b.order

instance : DecidableRel childLE := fun a b => inferInstanceAs (Decidable (a.order ≤ b.order))

instance : IsTotal Child childLE := ⟨fun a b => Int.le_total a.order b.order⟩

instance : IsTrans Child childLE := ⟨fun _ _ _ hab hbc => Int.le_trans hab hbc⟩

/-- The call `.sort((a, b) => a.order - b.order)`: a stable comparison sort
ascending by `order` (modelled as insertion sort, which matches the
observable behaviour of JS `Array.prototype.sort` for this
comparator). -/
def sortByOrder (cs : List Child) : List Child := List.insertionSort childLE cs

/-- The body of `fetchChildren` minus the network: given the raw query rows
`[uid, string, order]` returned by `runQuery`, map them to structured
objects and sort ascending by `order`. -/
def fetchChildren (rows : List (String × String × Int)) : List Child :=
  sortByOrder (rows.map fun row => { uid := row.1, string := row.2.1, order := row.2.2 })

/-- A node of the assembled block tree:
`{ uid, string, order, children }`. -/
inductive Block where
  | mk (uid : String) (string : String) (order : Int) (children : List Block) : Block

def Block.uid : Block → String
  | Block.mk u _ _ _ => u

def Block.string : Block → String
  | Block.mk _ s _ _ => s

def Block.order : Block → Int
  | Block.mk _ _ o _ => o

def Block.children : Block → List Block
  | Block.mk _ _ _ cs => cs

mutual

/-- Depth of one block: 1 plus the depth of its children forest. -/
def Block.depth : Block → Nat
  | Block.mk _ _ _ cs => 1 + Block.listDepth cs

/-- Depth of a forest: greatest depth of its blocks (0 when empty). -/
def Block.listDepth : List Block → Nat
  | [] => 0
  | b :: bs => max (Block.depth b) (Block.listDepth bs)

end

mutual

/-- Every `children` sequence inside the block is sorted ascending by
`order`. -/
def Block.sorted : Block → Bool
  | Block.mk _ _ _ cs => Block.listSorted cs

/-- The forest is sorted ascending by `order` and so is every nested
`children` sequence. -/
def Block.listSorted : List Block → Bool
  | [] => true
  | [b] => Block.sorted b
  | a :: b :: rest => decide (a.order ≤ b.order) && Block.sorted a && Block.listSorted (b :: rest)

end

mutual

/-- Shallow embedding of `buildBlockTree(config, parentUid, depth, maxDepth)`
with the child fetch abstracted to `f` (in the source,
`fetchChildren(config, ·)`, an awaited call that can reject).  The source
recursion is indexed by `depth`/`maxDepth` with guard
`depth >= maxDepth → []` and recursive calls at `depth + 1`; here `fuel`
is `maxDepth - depth`, so the guard is `fuel = 0` and recursive calls get
`fuel - 1`. -/
def buildTreeAux (f : String → Except String (List Child)) :
    Nat → String → Except String (List Block)
  | 0, _ => Except.ok []
  | fuel + 1, parentUid =>
    match f parentUid with
    | Except.error e => Except.error e
    | Except.ok children => buildTreeList f fuel children

/-- The `for (const child of children)` loop body: recursively build each
child's subtree and push `{uid, string, order, children}`, propagating the
first rejection. -/
def buildTreeList (f : String → Except String (List Child)) :
    Nat → List Child → Except String (List Block)
  | _, [] => Except.ok []
  | fuel, c :: rest =>
    match buildTreeAux f fuel c.uid with
    | Except.error e => Except.error e
    | Except.ok sub =>
      match buildTreeList f fuel rest with
      | Except.error e => Except.error e
      | Except.ok blocks => Except.ok (Block.mk c.uid c.string c.order sub :: blocks)

end

/-- The routine `buildBlockTree(config, parentUid, depth, maxDepth)`, stated in
the source's `depth`/`maxDepth` indexing (`fuel = maxDepth - depth`). -/
def buildBlockTree (f : String → Except String (List Child)) (parentUid : String)
    (depth : Nat := 0) (maxDepth : Nat := 10) : Except String (List Block) :=
  buildTreeAux f (maxDepth - depth) parentUid

/-- The fetch function actually passed to the recursion in the source: the
remote query (`runQuery`, abstracted as `remote`) post-processed by
the map-and-sort post-processing of `fetchChildren`. -/
def fetchChildrenVia (remote : String → Except String (List (String × String × Int)))
    (parentUid : String) : Except String (List Child) :=
  match remote parentUid with
  | Except.error e => Except.error e
  | Except.ok rows => Except.ok (fetchChildren rows)

/-- The predicate `FirstError f fuel uid e` says that traversing the children of `uid`
with `fuel = maxDepth - depth` remaining levels encounters `e` as the
first fetch error: either the fetch of the children of `uid` rejects with
`e`, or every sibling before some child `c` builds successfully and the
subtree of `c` encounters `e` first. -/
inductive FirstError (f : String → Except String (List Child)) :
    Nat → String → String → Prop where
  | fetchFail (fuel : Nat) (uid : String) (e : String) :
      f uid = Except.error e → FirstError f (fuel + 1) uid e
  | childFail (fuel : Nat) (uid : String) (cs pre post : List Child) (c : Child) (e : String) :
      f uid = Except.ok cs → cs = pre ++ c :: post →
      (∀ c' ∈ pre, ∃ bs, buildTreeAux f fuel c'.uid = Except.ok bs) →
      FirstError f fuel c.uid e →
      FirstError f (fuel + 1) uid e

/-- A concrete fetch function that succeeds for the root and its child but
rejects for the grandchild — the test fixture suggested by the spec. -/
def grandchildFailingFetch : String → Except String (List Child) := fun uid =>
  if uid = "root" then Except.ok [{ uid := "c1", string := "child", order := 0 }]
  else if uid = "c1" then Except.ok [{ uid := "g1", string := "grandchild", order := 0 }]
  else Except.error "boom"

/-! ## Daily-note title (`write-content.js` lines 110–134) -/

/-- The `months` array of `getTodayRoamTitle`. -/
def months : List String :=
  ["January", "February", "March", "April", "May", "June",
   "July", "August", "September", "October", "November", "December"]

/-- The helper `getOrdinalSuffix(day)`. -/
def getOrdinalSuffix (day : Nat) : String :=
  if 11 ≤ day ∧ day ≤ 13 then "th"
  else
    match day % 10 with
    | 1 => "st"
    | 2 => "nd"
    | 3 => "rd"
    | _ => "th"

/-- The helper `getTodayRoamTitle()` with the platform date (`now.getMonth()`,
`now.getDate()`, `now.getFullYear()`) abstracted into arguments:
`` `${month} ${day}${suffix}, ${year}` ``. -/
def getTodayRoamTitle (monthIndex : Nat) (day : Nat) (year : Nat) : String :=
  (months.getD monthIndex "") ++ " " ++ toString day ++ getOrdinalSuffix day
    ++ ", " ++ toString year

/-- The ordinal-suffix rule as the specification states it: `th` for every
day in `11..13`, otherwise `st`/`nd`/`rd`/`th` according to the last digit
of the day being `1`/`2`/`3`/anything else. -/
def ordinalSuffixSpec (day : Nat) : String :=
  if 11 ≤ day ∧ day ≤ 13 then "th"
  else if day % 10 = 1 then "st"
  else if day % 10 = 2 then "nd"
  else if day % 10 = 3 then "rd"
  else "th"

/-! ## Helper lemmas -/

theorem runHop_of_response (timeoutMs : Nat) (h : Hop) (r : RespData)
    (hr : h.outcome = HopOutcome.response r) (ht : h.elapsed < timeoutMs) :
    runHop timeoutMs h = (Except.ok r, h.elapsed) := by
  unfold runHop
  rw [if_neg (Nat.not_le.mpr ht), hr]

theorem runHop_elapsed_le (timeoutMs : Nat) (h : Hop) :
    (runHop timeoutMs h).2 ≤ timeoutMs := by
  unfold runHop
  split
  · exact Nat.le_refl _
  · rename_i hlt
    cases h.outcome <;> exact Nat.le_of_lt (Nat.lt_of_not_le hlt)

theorem makeHttpsRequest_direct (parseJson : String → Except String Json)
    (timeoutMs : Nat) (net : Bool → Hop) (r1 : RespData)
    (h1 : (net false).outcome = HopOutcome.response r1)
    (ht1 : (net false).elapsed < timeoutMs)
    (hnr : isRedirect r1.statusCode = false) :
    makeHttpsRequest parseJson timeoutMs net =
      { result := finishResponse parseJson r1, elapsed := (net false).elapsed } := by
  unfold makeHttpsRequest
  rw [runHop_of_response timeoutMs (net false) r1 h1 ht1]
  simp [hnr]

theorem makeHttpsRequest_redirected (parseJson : String → Except String Json)
    (timeoutMs : Nat) (net : Bool → Hop) (r1 r2 : RespData)
    (h1 : (net false).outcome = HopOutcome.response r1)
    (ht1 : (net false).elapsed < timeoutMs)
    (hrd : isRedirect r1.statusCode = true)
    (h2 : (net true).outcome = HopOutcome.response r2)
    (ht2 : (net true).elapsed < timeoutMs) :
    makeHttpsRequest parseJson timeoutMs net =
      { result := finishResponse parseJson r2,
        elapsed := (net false).elapsed + (net true).elapsed } := by
  unfold makeHttpsRequest
  rw [runHop_of_response timeoutMs (net false) r1 h1 ht1]
  simp only [hrd, if_true]
  rw [runHop_of_response timeoutMs (net true) r2 h2 ht2]

/-! ## Claims about the request client -/

/-- C2: `makeHttpsRequest` follows exactly one redirect hop.  If the first
response is a 301 and the second a 200, the call resolves with the parsed
body of the second response; if the second response is again a 301, that
second 301 is treated as a final non-200 response and the call rejects
with `Http{statusCode := 301}` carrying its body — the redirect is not
followed. -/
theorem makeHttpsRequest_single_redirect_hop
    (parseJson : String → Except String Json) (timeoutMs : Nat) (net : Bool → Hop)
    (r1 r2 : RespData)
    (h1 : (net false).outcome = HopOutcome.response r1)
    (ht1 : (net false).elapsed < timeoutMs)
    (hs1 : r1.statusCode = 301)
    (h2 : (net true).outcome = HopOutcome.response r2)
    (ht2 : (net true).elapsed < timeoutMs) :
    (∀ j : Json, r2.statusCode = 200 → r2.body ≠ "" → parseJson r2.body = Except.ok j →
      (makeHttpsRequest parseJson timeoutMs net).result = Except.ok j)
    ∧ (r2.statusCode = 301 →
      (makeHttpsRequest parseJson timeoutMs net).result =
        Except.error (RequestError.http 301 r2.body)) := by
  have hrd : isRedirect r1.statusCode = true := by
    rw [hs1]; rfl
  have hsend := makeHttpsRequest_redirected parseJson timeoutMs net r1 r2 h1 ht1 hrd h2 ht2
  constructor
  · intro j hs2 hb hp
    rw [hsend]
    simp [finishResponse, hs2, hb, hp]
  · intro hs2
    rw [hsend]
    simp [finishResponse, hs2]

/-- Witness for C2 at concrete inputs: a 301 at hop one followed by a 200
with body `{"result":[]}` resolves with the parsed body, and a 301
followed by another 301 rejects with `Http{statusCode := 301}`. -/
theorem makeHttpsRequest_single_redirect_hop_witness :
    (makeHttpsRequest
        (fun s => if s = "[]" then Except.ok (Json.arr []) else Except.error "bad")
        30000
        (fun b => if b then
            { elapsed := 5, outcome := HopOutcome.response { statusCode := 200, body := "[]" } }
          else
            { elapsed := 5, outcome := HopOutcome.response { statusCode := 301, body := "" } })).result
      = Except.ok (Json.arr [])
    ∧ (makeHttpsRequest
        (fun s => if s = "[]" then Except.ok (Json.arr []) else Except.error "bad")
        30000
        (fun b => if b then
            { elapsed := 5, outcome := HopOutcome.response { statusCode := 301, body := "moved again" } }
          else
            { elapsed := 5, outcome := HopOutcome.response { statusCode := 301, body := "" } })).result
      = Except.error (RequestError.http 301 "moved again") := by
  constructor
  · exact (makeHttpsRequest_single_redirect_hop _ 30000 _
      { statusCode := 301, body := "" } { statusCode := 200, body := "[]" }
      rfl (by decide) rfl rfl (by decide)).1 (Json.arr []) rfl (by decide) rfl
  · exact (makeHttpsRequest_single_redirect_hop _ 30000 _
      { statusCode := 301, body := "" } { statusCode := 301, body := "moved again" }
      rfl (by decide) rfl rfl (by decide)).2 rfl

/-- C3 counterexample: with a configured timeout of 10 ms, a first hop that
answers 301 after 9 ms and a redirect hop that answers 200 after a further
9 ms both complete (the redirect request is created with its own
`timeout: timeout` option, a fresh budget of the same value), so the call
succeeds with a total elapsed time of 18 ms — more than the single
configured timeout.  The timeout budget is therefore not shared across the
two hops. -/
theorem makeHttpsRequest_shared_budget_counterexample :
    (makeHttpsRequest (fun _ => Except.error "unused") 10
        (fun b => if b then
            { elapsed := 9, outcome := HopOutcome.response { statusCode := 200, body := "" } }
          else
            { elapsed := 9, outcome := HopOutcome.response { statusCode := 301, body := "" } })).result
      = Except.ok (Json.obj [])
    ∧ (makeHttpsRequest (fun _ => Except.error "unused") 10
        (fun b => if b then
            { elapsed := 9, outcome := HopOutcome.response { statusCode := 200, body := "" } }
          else
            { elapsed := 9, outcome := HopOutcome.response { statusCode := 301, body := "" } })).elapsed
      = 18
    ∧ ¬ (18 : Nat) ≤ 10 :=
  ⟨rfl, rfl, by decide⟩

/-- C3 amended: the redirect hop is issued with a fresh socket timeout of
the same configured value (`timeout: timeout`), not with the remainder of
a shared budget, so the total elapsed time of a `makeHttpsRequest` call is
bounded by twice the configured timeout (and only by twice, as the
counterexample shows). -/
theorem makeHttpsRequest_elapsed_le_two_timeouts
    (parseJson : String → Except String Json) (timeoutMs : Nat) (net : Bool → Hop) :
    (makeHttpsRequest parseJson timeoutMs net).elapsed ≤ 2 * timeoutMs := by
  have hA := runHop_elapsed_le timeoutMs (net false)
  have hB := runHop_elapsed_le timeoutMs (net true)
  unfold makeHttpsRequest
  rcases hE1 : runHop timeoutMs (net false) with ⟨res1, t1⟩
  rw [hE1] at hA
  simp only at hA
  cases res1 with
  | error e => simpa using Nat.le_trans hA (by omega)
  | ok r1 =>
    by_cases hrd : isRedirect r1.statusCode
    · simp only [hrd, if_true]
      rcases hE2 : runHop timeoutMs (net true) with ⟨res2, t2⟩
      rw [hE2] at hB
      simp only at hB
      cases res2 with
      | error e => simpa using by omega
      | ok r2 => simpa using by omega
    · simp only [hrd, if_false]
      simpa using Nat.le_trans hA (by omega)

theorem finishResponse_parse_error (parseJson : String → Except String Json)
    (r : RespData) (msg : String) (hs : r.statusCode = 200) (hb : r.body ≠ "")
    (hp : parseJson r.body = Except.error msg) :
    finishResponse parseJson r = Except.error (RequestError.parse msg) := by
  simp [finishResponse, hs, hb, hp]

theorem finishResponse_empty_body (parseJson : String → Except String Json)
    (r : RespData) (hs : r.statusCode = 200) (hb : r.body = "") :
    finishResponse parseJson r = Except.ok (Json.obj []) := by
  simp [finishResponse, hs, hb]

theorem finishResponse_non_200 (parseJson : String → Except String Json)
    (r : RespData) (hs : r.statusCode ≠ 200) :
    finishResponse parseJson r = Except.error (RequestError.http r.statusCode r.body) := by
  simp [finishResponse, hs]

/-- C4 counterexample: the empty string is not valid JSON — the platform
`JSON.parse` rejects it, and here the injected parser rejects every
string, the empty one included — yet a 200 response with an empty body
resolves with the empty object instead of failing with a `ParseError`,
because `data ? JSON.parse(data) : {}` routes the empty body around the
parser. -/
theorem makeHttpsRequest_invalid_empty_body_counterexample :
    (makeHttpsRequest (fun _ => Except.error "Unexpected end of JSON input") 30000
        (fun _ => { elapsed := 5, outcome := HopOutcome.response { statusCode := 200, body := "" } })).result
      = Except.ok (Json.obj []) := rfl

/-- C4 amended: whenever the final response (first hop if it is not a
redirect, or the redirect hop) has status exactly 200 and a non-empty
body the injected JSON parser rejects, `makeHttpsRequest` fails with that
`ParseError` — the failure reaches the caller, it is neither swallowed nor
turned into an empty success.  (The empty body never reaches the parser
and yields an empty success instead.) -/
theorem makeHttpsRequest_parse_error_propagates
    (parseJson : String → Except String Json) (timeoutMs : Nat) (net : Bool → Hop)
    (msg : String) :
    (∀ r1 : RespData, (net false).outcome = HopOutcome.response r1 →
      (net false).elapsed < timeoutMs → r1.statusCode = 200 → r1.body ≠ "" →
      parseJson r1.body = Except.error msg →
      (makeHttpsRequest parseJson timeoutMs net).result =
        Except.error (RequestError.parse msg))
    ∧ (∀ r1 r2 : RespData, (net false).outcome = HopOutcome.response r1 →
      (net false).elapsed < timeoutMs → isRedirect r1.statusCode = true →
      (net true).outcome = HopOutcome.response r2 →
      (net true).elapsed < timeoutMs → r2.statusCode = 200 → r2.body ≠ "" →
      parseJson r2.body = Except.error msg →
      (makeHttpsRequest parseJson timeoutMs net).result =
        Except.error (RequestError.parse msg)) := by
  constructor
  · intro r1 h1 ht1 hs hb hp
    have hnr : isRedirect r1.statusCode = false := by rw [hs]; rfl
    rw [makeHttpsRequest_direct parseJson timeoutMs net r1 h1 ht1 hnr]
    exact finishResponse_parse_error parseJson r1 msg hs hb hp
  · intro r1 r2 h1 ht1 hrd h2 ht2 hs hb hp
    rw [makeHttpsRequest_redirected parseJson timeoutMs net r1 r2 h1 ht1 hrd h2 ht2]
    exact finishResponse_parse_error parseJson r2 msg hs hb hp

/-- Witness for C4: a 200 response with body `not json` (directly, and
after a 301 redirect) makes the call fail with the parse error. -/
theorem makeHttpsRequest_parse_error_propagates_witness :
    (makeHttpsRequest (fun _ => Except.error "Unexpected token") 30000
        (fun _ => { elapsed := 5, outcome := HopOutcome.response { statusCode := 200, body := "not json" } })).result
      = Except.error (RequestError.parse "Unexpected token")
    ∧ (makeHttpsRequest (fun _ => Except.error "Unexpected token") 30000
        (fun b => if b then
            { elapsed := 5, outcome := HopOutcome.response { statusCode := 200, body := "not json" } }
          else
            { elapsed := 5, outcome := HopOutcome.response { statusCode := 308, body := "" } })).result
      = Except.error (RequestError.parse "Unexpected token") := by
  constructor
  · exact (makeHttpsRequest_parse_error_propagates _ 30000 _ "Unexpected token").1
      { statusCode := 200, body := "not json" } rfl (by decide) rfl (by decide) rfl
  · exact (makeHttpsRequest_parse_error_propagates _ 30000 _ "Unexpected token").2
      { statusCode := 308, body := "" } { statusCode := 200, body := "not json" }
      rfl (by decide) rfl rfl (by decide) rfl (by decide) rfl

/-- C6: whenever the final response (first hop if it is not a redirect, or
the redirect hop) has status exactly 200 and an empty body,
`makeHttpsRequest` resolves with an empty JSON object — the empty body is
never handed to the JSON parser (`data ? JSON.parse(data) : {}`), so no
parse error can occur. -/
theorem makeHttpsRequest_empty_body_empty_object
    (parseJson : String → Except String Json) (timeoutMs : Nat) (net : Bool → Hop) :
    (∀ r1 : RespData, (net false).outcome = HopOutcome.response r1 →
      (net false).elapsed < timeoutMs → r1.statusCode = 200 → r1.body = "" →
      (makeHttpsRequest parseJson timeoutMs net).result = Except.ok (Json.obj []))
    ∧ (∀ r1 r2 : RespData, (net false).outcome = HopOutcome.response r1 →
      (net false).elapsed < timeoutMs → isRedirect r1.statusCode = true →
      (net true).outcome = HopOutcome.response r2 →
      (net true).elapsed < timeoutMs → r2.statusCode = 200 → r2.body = "" →
      (makeHttpsRequest parseJson timeoutMs net).result = Except.ok (Json.obj [])) := by
  constructor
  · intro r1 h1 ht1 hs hb
    have hnr : isRedirect r1.statusCode = false := by rw [hs]; rfl
    rw [makeHttpsRequest_direct parseJson timeoutMs net r1 h1 ht1 hnr]
    exact finishResponse_empty_body parseJson r1 hs hb
  · intro r1 r2 h1 ht1 hrd h2 ht2 hs hb
    rw [makeHttpsRequest_redirected parseJson timeoutMs net r1 r2 h1 ht1 hrd h2 ht2]
    exact finishResponse_empty_body parseJson r2 hs hb

/-- Witness for C6: a 200 response with empty body yields the empty
object even under a parser that rejects every string. -/
theorem makeHttpsRequest_empty_body_empty_object_witness :
    (makeHttpsRequest (fun _ => Except.error "never") 30000
        (fun _ => { elapsed := 5, outcome := HopOutcome.response { statusCode := 200, body := "" } })).result
      = Except.ok (Json.obj []) :=
  (makeHttpsRequest_empty_body_empty_object _ 30000 _).1
    { statusCode := 200, body := "" } rfl (by decide) rfl rfl

/-- C7: whenever the final response (a non-redirect first hop, or the
second hop — including a second redirect, which is not followed) has a
status other than 200, `makeHttpsRequest` fails with
`Http{statusCode, rawBody}` where `rawBody` is the accumulated body string
exactly as received; the conclusion holds for every injected JSON parser,
so the body is never parsed as JSON at this layer. -/
theorem makeHttpsRequest_non_200_http_error
    (parseJson : String → Except String Json) (timeoutMs : Nat) (net : Bool → Hop) :
    (∀ r1 : RespData, (net false).outcome = HopOutcome.response r1 →
      (net false).elapsed < timeoutMs → isRedirect r1.statusCode = false →
      r1.statusCode ≠ 200 →
      (makeHttpsRequest parseJson timeoutMs net).result =
        Except.error (RequestError.http r1.statusCode r1.body))
    ∧ (∀ r1 r2 : RespData, (net false).outcome = HopOutcome.response r1 →
      (net false).elapsed < timeoutMs → isRedirect r1.statusCode = true →
      (net true).outcome = HopOutcome.response r2 →
      (net true).elapsed < timeoutMs → r2.statusCode ≠ 200 →
      (makeHttpsRequest parseJson timeoutMs net).result =
        Except.error (RequestError.http r2.statusCode r2.body)) := by
  constructor
  · intro r1 h1 ht1 hnr hs
    rw [makeHttpsRequest_direct parseJson timeoutMs net r1 h1 ht1 hnr]
    exact finishResponse_non_200 parseJson r1 hs
  · intro r1 r2 h1 ht1 hrd h2 ht2 hs
    rw [makeHttpsRequest_redirected parseJson timeoutMs net r1 r2 h1 ht1 hrd h2 ht2]
    exact finishResponse_non_200 parseJson r2 hs

/-- Witness for C7: a direct 404 and a redirected 500 both fail with the
status and the raw body exactly as received. -/
theorem makeHttpsRequest_non_200_http_error_witness :
    (makeHttpsRequest (fun _ => Except.ok Json.null) 30000
        (fun _ => { elapsed := 5, outcome := HopOutcome.response { statusCode := 404, body := "Page not found" } })).result
      = Except.error (RequestError.http 404 "Page not found")
    ∧ (makeHttpsRequest (fun _ => Except.ok Json.null) 30000
        (fun b => if b then
            { elapsed := 5, outcome := HopOutcome.response { statusCode := 500, body := "oops" } }
          else
            { elapsed := 5, outcome := HopOutcome.response { statusCode := 302, body := "" } })).result
      = Except.error (RequestError.http 500 "oops") := by
  constructor
  · exact (makeHttpsRequest_non_200_http_error _ 30000 _).1
      { statusCode := 404, body := "Page not found" } rfl (by decide) rfl (by decide)
  · exact (makeHttpsRequest_non_200_http_error _ 30000 _).2
      { statusCode := 302, body := "" } { statusCode := 500, body := "oops" }
      rfl (by decide) rfl rfl (by decide) (by decide)

/-! ## Claims about the tree fetcher -/

theorem fetchChildren_sorted (rows : List (String × String × Int)) :
    List.Sorted childLE (fetchChildren rows) := by
  simp only [fetchChildren, sortByOrder]
  exact List.sorted_insertionSort childLE _

/-- C9: `fetchChildren` maps the raw query rows `[uid, string, order]` to
`{uid, string, order}` records and returns them sorted ascending by
`order`, for every query result: its output is a sorted permutation of
the mapped rows. -/
theorem fetchChildren_sorted_permutation (rows : List (String × String × Int)) :
    List.Sorted childLE (fetchChildren rows)
    ∧ (fetchChildren rows).Perm
        (rows.map fun row => ({ uid := row.1, string := row.2.1, order := row.2.2 } : Child)) := by
  refine ⟨fetchChildren_sorted rows, ?_⟩
  simp only [fetchChildren, sortByOrder]
  exact List.perm_insertionSort childLE _

theorem buildTreeList_sorted (f : String → Except String (List Child)) (fuel : Nat)
    (ihAux : ∀ uid bs, buildTreeAux f fuel uid = Except.ok bs → Block.listSorted bs = true) :
    ∀ children bs, List.Sorted childLE children →
      buildTreeList f fuel children = Except.ok bs → Block.listSorted bs = true := by
  intro children
  induction children with
  | nil =>
    intro bs _ hb
    simp only [buildTreeList] at hb
    cases hb
    rfl
  | cons c rest ih =>
    intro bs hsorted hb
    rw [List.sorted_cons] at hsorted
    obtain ⟨hhead, htail⟩ := hsorted
    simp only [buildTreeList] at hb
    cases hsub : buildTreeAux f fuel c.uid with
    | error e => rw [hsub] at hb; cases hb
    | ok sub =>
    rw [hsub] at hb
    cases hrest : buildTreeList f fuel rest with
    | error e => rw [hrest] at hb; cases hb
    | ok blocks =>
    rw [hrest] at hb
    cases hb
    have hsubSorted : Block.listSorted sub = true := ihAux c.uid sub hsub
    have hblocksSorted : Block.listSorted blocks = true := ih blocks htail hrest
    cases rest with
    | nil =>
      simp only [buildTreeList] at hrest
      cases hrest
      simp only [Block.listSorted, Block.sorted]
      exact hsubSorted
    | cons c2 rest2 =>
      simp only [buildTreeList] at hrest
      cases hsub2 : buildTreeAux f fuel c2.uid with
      | error e => rw [hsub2] at hrest; cases hrest
      | ok sub2 =>
      rw [hsub2] at hrest
      cases hrest2 : buildTreeList f fuel rest2 with
      | error e => rw [hrest2] at hrest; cases hrest
      | ok blocks2 =>
      rw [hrest2] at hrest
      cases hrest
      simp only [Block.listSorted, Block.sorted, Block.order, Bool.and_eq_true,
        decide_eq_true_eq]
      exact ⟨⟨hhead c2 (List.mem_cons_self c2 rest2), hsubSorted⟩, hblocksSorted⟩

theorem buildTreeAux_sorted (f : String → Except String (List Child))
    (hf : ∀ uid cs, f uid = Except.ok cs → List.Sorted childLE cs) :
    ∀ fuel uid bs, buildTreeAux f fuel uid = Except.ok bs → Block.listSorted bs = true := by
  intro fuel
  induction fuel with
  | zero =>
    intro uid bs hb
    simp only [buildTreeAux] at hb
    cases hb
    rfl
  | succ fuel ih =>
    intro uid bs hb
    simp only [buildTreeAux] at hb
    cases hfu : f uid with
    | error e => rw [hfu] at hb; cases hb
    | ok children =>
      rw [hfu] at hb
      exact buildTreeList_sorted f fuel ih children bs (hf uid children hfu) hb

/-- C1 counterexample: `buildBlockTree` itself never sorts — handed a fetch
function that returns its children out of order (orders `1` then `0`), it
returns the node sequence in exactly that unsorted order. -/
theorem buildBlockTree_unsorted_fetch_counterexample :
    buildBlockTree
        (fun _ => Except.ok [{ uid := "b", string := "x", order := 1 },
                             { uid := "a", string := "y", order := 0 }]) "root" 0 1
      = Except.ok [Block.mk "b" "x" 1 [], Block.mk "a" "y" 0 []]
    ∧ Block.listSorted [Block.mk "b" "x" 1 [], Block.mk "a" "y" 0 []] = false := by
  constructor
  · simp [buildBlockTree, buildTreeAux, buildTreeList]
  · simp [Block.listSorted, Block.sorted, Block.order]

/-- C1 amended: the node sequences `buildBlockTree` returns are sorted
ascending by `order` at every level of the tree whenever the injected
fetch function is the `fetchChildren` pipeline of the repository (remote rows
post-processed by map-and-sort), for every row order the remote service
returns — the sorting is performed by `fetchChildren`, not by the
recursive builder. -/
theorem buildBlockTree_sorted_via_fetchChildren
    (remote : String → Except String (List (String × String × Int)))
    (parentUid : String) (depth maxDepth : Nat) (bs : List Block)
    (h : buildBlockTree (fetchChildrenVia remote) parentUid depth maxDepth = Except.ok bs) :
    Block.listSorted bs = true := by
  refine buildTreeAux_sorted (fetchChildrenVia remote) ?_ (maxDepth - depth) parentUid bs h
  intro uid cs hcs
  unfold fetchChildrenVia at hcs
  cases hr : remote uid with
  | error e => rw [hr] at hcs; cases hcs
  | ok rows =>
    rw [hr] at hcs
    cases hcs
    exact fetchChildren_sorted rows

/-- Witness for the amended C1: a remote that returns the root rows in
descending order still yields a sorted tree through `fetchChildren`. -/
theorem buildBlockTree_sorted_via_fetchChildren_witness :
    buildBlockTree
        (fetchChildrenVia (fun uid =>
          if uid = "root" then Except.ok [("b", "x", (1 : Int)), ("a", "y", (0 : Int))]
          else Except.ok []))
        "root" 0 2
      = Except.ok [Block.mk "a" "y" 0 [], Block.mk "b" "x" 1 []]
    ∧ Block.listSorted [Block.mk "a" "y" 0 [], Block.mk "b" "x" 1 []] = true := by
  constructor
  · simp [buildBlockTree, buildTreeAux, buildTreeList, fetchChildrenVia, fetchChildren,
      sortByOrder, List.insertionSort, List.orderedInsert, childLE]
  · exact buildBlockTree_sorted_via_fetchChildren
      (fun uid => if uid = "root" then Except.ok [("b", "x", (1 : Int)), ("a", "y", (0 : Int))]
        else Except.ok [])
      "root" 0 2 [Block.mk "a" "y" 0 [], Block.mk "b" "x" 1 []]
      (by simp [buildBlockTree, buildTreeAux, buildTreeList, fetchChildrenVia, fetchChildren,
        sortByOrder, List.insertionSort, List.orderedInsert, childLE])

theorem buildTreeList_depth_le (f : String → Except String (List Child)) (fuel : Nat)
    (ihAux : ∀ uid bs, buildTreeAux f fuel uid = Except.ok bs → Block.listDepth bs ≤ fuel) :
    ∀ children bs, buildTreeList f fuel children = Except.ok bs →
      Block.listDepth bs ≤ fuel + 1 := by
  intro children
  induction children with
  | nil =>
    intro bs hb
    simp only [buildTreeList] at hb
    cases hb
    simp [Block.listDepth]
  | cons c rest ih =>
    intro bs hb
    simp only [buildTreeList] at hb
    cases hsub : buildTreeAux f fuel c.uid with
    | error e => rw [hsub] at hb; cases hb
    | ok sub =>
    rw [hsub] at hb
    cases hrest : buildTreeList f fuel rest with
    | error e => rw [hrest] at hb; cases hb
    | ok blocks =>
    rw [hrest] at hb
    cases hb
    have h1 := ihAux c.uid sub hsub
    have h2 := ih blocks hrest
    simp only [Block.listDepth, Block.depth]
    refine Nat.max_le.mpr ⟨?_, ?_⟩ <;> omega

theorem buildTreeAux_depth_le (f : String → Except String (List Child)) :
    ∀ fuel uid bs, buildTreeAux f fuel uid = Except.ok bs → Block.listDepth bs ≤ fuel := by
  intro fuel
  induction fuel with
  | zero =>
    intro uid bs hb
    simp only [buildTreeAux] at hb
    cases hb
    simp [Block.listDepth]
  | succ fuel ih =>
    intro uid bs hb
    simp only [buildTreeAux] at hb
    cases hfu : f uid with
    | error e => rw [hfu] at hb; cases hb
    | ok children =>
      rw [hfu] at hb
      exact buildTreeList_depth_le f fuel ih children bs hb

/-- C5: for every fetch function and every `maxDepth`, a successful
`buildBlockTree` call starting at depth 0 returns a forest whose nesting
depth never exceeds `maxDepth`; in particular with `maxDepth = 0` it
returns the empty sequence whatever the fetch function would return. -/
theorem buildBlockTree_depth_bound (f : String → Except String (List Child))
    (parentUid : String) (maxDepth : Nat) :
    (∀ bs, buildBlockTree f parentUid 0 maxDepth = Except.ok bs →
      Block.listDepth bs ≤ maxDepth)
    ∧ buildBlockTree f parentUid 0 0 = Except.ok [] := by
  constructor
  · intro bs h
    simpa using buildTreeAux_depth_le f (maxDepth - 0) parentUid bs h
  · simp [buildBlockTree, buildTreeAux]

/-- Witness for C5: an unbounded synthetic chain cut at `maxDepth = 2`
yields exactly two levels, and `maxDepth = 0` yields the empty forest. -/
theorem buildBlockTree_depth_bound_witness :
    Block.listDepth [Block.mk "rx" "" 0 [Block.mk "rxx" "" 0 []]] ≤ 2
    ∧ buildBlockTree
        (fun uid => Except.ok [{ uid := uid ++ "x", string := "", order := 0 }]) "r" 0 0
      = Except.ok [] := by
  constructor
  · exact (buildBlockTree_depth_bound
      (fun uid => Except.ok [{ uid := uid ++ "x", string := "", order := 0 }]) "r" 2).1
      [Block.mk "rx" "" 0 [Block.mk "rxx" "" 0 []]]
      (by simp [buildBlockTree, buildTreeAux, buildTreeList])
  · exact (buildBlockTree_depth_bound
      (fun uid => Except.ok [{ uid := uid ++ "x", string := "", order := 0 }]) "r" 0).2

theorem buildTreeList_first_error (f : String → Except String (List Child)) (fuel : Nat) :
    ∀ (pre : List Child) (c : Child) (post : List Child) (e : String),
      (∀ c' ∈ pre, ∃ bs, buildTreeAux f fuel c'.uid = Except.ok bs) →
      buildTreeAux f fuel c.uid = Except.error e →
      buildTreeList f fuel (pre ++ c :: post) = Except.error e := by
  intro pre
  induction pre with
  | nil =>
    intro c post e _ hc
    simp only [List.nil_append, buildTreeList, hc]
  | cons p pre' ih =>
    intro c post e hpre hc
    obtain ⟨bs, hbs⟩ := hpre p (List.mem_cons_self p pre')
    have hrest := ih c post e (fun c' hc' => hpre c' (List.mem_cons_of_mem p hc')) hc
    simp only [List.cons_append, buildTreeList, hbs, hrest]

/-- C8: if the child fetch rejects for any node reached during the
traversal — the root itself, or any descendant within the depth bound
whose earlier siblings all built successfully — the whole `buildBlockTree`
call rejects with that first error; no partial tree is returned. -/
theorem buildBlockTree_first_error (f : String → Except String (List Child))
    (parentUid : String) (depth maxDepth : Nat) (e : String)
    (h : FirstError f (maxDepth - depth) parentUid e) :
    buildBlockTree f parentUid depth maxDepth = Except.error e := by
  suffices H : ∀ fuel uid, FirstError f fuel uid e → buildTreeAux f fuel uid = Except.error e by
    exact H _ _ h
  clear h
  intro fuel uid hfe
  induction hfe with
  | fetchFail fuel uid e1 hf =>
    simp only [buildTreeAux, hf]
  | childFail fuel uid cs pre post c e1 hok hsplit hpre hfirst ih =>
    subst hsplit
    simp only [buildTreeAux, hok]
    exact buildTreeList_first_error f fuel pre c post e1 hpre ih

/-- Witness for C8: a fetch function that succeeds for the child of the root
but rejects for a grandchild makes the whole call reject with that error
(via the explicit first-error derivation through the tree). -/
theorem buildBlockTree_first_error_witness :
    buildBlockTree grandchildFailingFetch "root" 0 10 = Except.error "boom" := by
  have h8 : FirstError grandchildFailingFetch 8 "g1" "boom" :=
    FirstError.fetchFail 7 "g1" "boom" rfl
  have h9 : FirstError grandchildFailingFetch 9 "c1" "boom" :=
    FirstError.childFail 8 "c1" [{ uid := "g1", string := "grandchild", order := 0 }] [] []
      { uid := "g1", string := "grandchild", order := 0 } "boom" rfl rfl (by simp) h8
  have h10 : FirstError grandchildFailingFetch 10 "root" "boom" :=
    FirstError.childFail 9 "root" [{ uid := "c1", string := "child", order := 0 }] [] []
      { uid := "c1", string := "child", order := 0 } "boom" rfl rfl (by simp) h9
  exact buildBlockTree_first_error grandchildFailingFetch "root" 0 10 "boom" h10

/-! ## Claim about the daily-note title -/

/-- C10: for every date, `getTodayRoamTitle` produces
`<MonthName> <day><suffix>, <year>`, where the ordinal suffix follows the
stated rule: `th` for every day in `11..13`, otherwise `st`/`nd`/`rd`/`th`
according to the last digit of the day being `1`/`2`/`3`/anything else. -/
theorem getTodayRoamTitle_format (monthIndex day year : Nat) :
    getTodayRoamTitle monthIndex day year =
      months.getD monthIndex "" ++ " " ++ toString day ++ getOrdinalSuffix day
        ++ ", " ++ toString year
    ∧ getOrdinalSuffix day = ordinalSuffixSpec day := by
  refine ⟨rfl, ?_⟩
  unfold getOrdinalSuffix ordinalSuffixSpec
  by_cases h : 11 ≤ day ∧ day ≤ 13
  · rw [if_pos h, if_pos h]
  · rw [if_neg h, if_neg h]
    obtain ⟨n, hn⟩ : ∃ n, day % 10 = n := ⟨_, rfl⟩
    have hn9 : n ≤ 9 := by omega
    rw [hn]
    interval_cases n <;> rfl

end Roam
